import Mathlib

/-!
Shallow embedding of `maven-downloader.py`: Maven coordinates, property
interpolation, dependency extraction and filtering, POM fetching with a
per-run cache, and the recursive download driver, together with theorems
settling the specification claims.

Python strings are modelled as Lean `String`s, with the relevant Python
string operations re-implemented on the underlying character lists (Python
strings are sequences of characters).  Python dictionaries used by the
program are modelled as association lists where the most recent assignment
is at the head.  Uncaught Python exceptions are modelled by an `exn`
result, and the program's potential non-termination (unguarded property /
parent recursion) by fuel; running out of fuel yields a `diverge` result.
-/

/-- Python `s.startswith(pre)` computed on character lists. -/
def startsWithChars : List Char → List Char → Bool
  | _, [] => true
  | [], _ :: _ => false
  | c :: cs, p :: ps => c == p && startsWithChars cs ps

/-- Python `val.startswith(pre)` for Lean strings. -/
def pyStartsWith (s pre : String) : Bool :=
  startsWithChars s.data pre.data

/-- Python `val.endswith(suf)` for Lean strings. -/
def pyEndsWith (s suf : String) : Bool :=
  startsWithChars s.data.reverse suf.data.reverse

/-- Python slice `val[2:-1]`. -/
def sliceTwoToLast (s : String) : String :=
  String.mk ((s.data.drop 2).dropLast)

/-- Python `s.lower()`. -/
def pyLower (s : String) : String :=
  String.mk (s.data.map Char.toLower)

/-- Lookup in a Python-dict model (most recent assignment at the head). -/
def dictGet : List (String × String) → String → Option String
  | [], _ => none
  | (k, v) :: rest, key => if k = key then some v else dictGet rest key

/-- Python dict assignment `d[k] = v`: the new binding shadows older ones. -/
def dictSet (d : List (String × String)) (k v : String) : List (String × String) :=
  (k, v) :: d

/-- `MavenPom._eval_with_properties`: a value of the exact `$\x7bname\x7d`
shape is replaced by recursively interpolating the property table entry for
`name` (empty string when absent); any other value is returned unchanged.
Fuel bounds the unguarded recursion; `none` models divergence. -/
def evalWithProperties (props : List (String × String)) : Nat → String → Option String
  | 0, _ => none
  | fuel + 1, val =>
    if pyStartsWith val "$\x7b" && pyEndsWith val "\x7d" then
      match dictGet props (sliceTwoToLast val) with
      | some v => evalWithProperties props fuel v
      | none => some ""
    else
      some val

/-- `MavenLib`: a Maven coordinate (group, artifact, version). -/
structure MavenLib where
  groupId : String
  artifactId : String
  version : String
deriving DecidableEq

/-- Python `str.split(c)` for a one-character separator: split at every
occurrence, keeping empty segments. -/
def splitOnChar (c : Char) : List Char → List (List Char)
  | [] => [[]]
  | x :: xs =>
    if x = c then [] :: splitOnChar c xs
    else
      match splitOnChar c xs with
      | [] => [[x]]
      | y :: ys => (x :: y) :: ys

/-- Python `sep.join(parts)` for a one-character separator. -/
def joinWithChar (c : Char) : List (List Char) → List Char
  | [] => []
  | [x] => x
  | x :: y :: ys => x ++ c :: joinWithChar c (y :: ys)

/-- `MavenLib._relative_path`: the group split on dots, then artifact,
version, and `artifact-version.suffix`, joined with slashes. -/
def MavenLib.relativePath (lib : MavenLib) (suffix : String) : String :=
  String.mk (joinWithChar '/'
    (splitOnChar '.' lib.groupId.data ++
      [lib.artifactId.data, lib.version.data,
        lib.artifactId.data ++ '-' :: (lib.version.data ++ '.' :: suffix.data)]))

/-- `MavenLib.relative_pom_path`. -/
def MavenLib.relativePomPath (lib : MavenLib) : String := lib.relativePath "pom"

/-- `MavenLib.relative_jar_path`. -/
def MavenLib.relativeJarPath (lib : MavenLib) : String := lib.relativePath "jar"

/-- `MavenLib.__repr__`: the `group:artifact:version` string form. -/
def MavenLib.toStringRepr (lib : MavenLib) : String :=
  lib.groupId ++ ":" ++ lib.artifactId ++ ":" ++ lib.version

/-- Python `s.split(c)` on Lean strings. -/
def strSplitOn (c : Char) (s : String) : List String :=
  (splitOnChar c s.data).map String.mk

/-- One iteration of `parse_downlod_libaries`: `lib.split(":")` unpacked
into exactly three components; any other shape raises and is rejected. -/
def parseLib (s : String) : Option MavenLib :=
  match (splitOnChar ':' s.data).map String.mk with
  | [g, a, v] => some ⟨g, a, v⟩
  | _ => none

/-- The loop of `parse_downlod_libaries`: malformed entries are reported
and skipped, the rest are collected in order. -/
def parseLibsLoop : List String → List MavenLib
  | [] => []
  | lib :: rest =>
    match parseLib lib with
    | some m => m :: parseLibsLoop rest
    | none => parseLibsLoop rest

/-- `parse_downlod_libaries`: split the argument on commas and parse each
piece as a coordinate. -/
def parseDownloadLibraries (s : String) : List MavenLib :=
  parseLibsLoop (strSplitOn ',' s)

/-! ### Basic lemmas about the string model -/

theorem stringData_append (s t : String) : (s ++ t).data = s.data ++ t.data := by
  cases s; cases t; rfl

theorem stringMk_data (s : String) : String.mk s.data = s := rfl

theorem splitOnChar_no_sep (c : Char) (l : List Char) (h : c ∉ l) :
    splitOnChar c l = [l] := by
  induction l with
  | nil => rfl
  | cons x xs ih =>
    have hx : ¬ x = c := fun e => h (e ▸ List.mem_cons_self x xs)
    have hxs : c ∉ xs := fun m => h (List.mem_cons_of_mem _ m)
    rw [splitOnChar, if_neg hx, ih hxs]

theorem splitOnChar_sep_split (c : Char) (g rest : List Char) (h : c ∉ g) :
    splitOnChar c (g ++ c :: rest) = g :: splitOnChar c rest := by
  induction g with
  | nil => simp [splitOnChar]
  | cons x xs ih =>
    have hx : ¬ x = c := fun e => h (e ▸ List.mem_cons_self x xs)
    have hxs : c ∉ xs := fun m => h (List.mem_cons_of_mem _ m)
    rw [List.cons_append, splitOnChar, if_neg hx, ih hxs]

/-- Interpolating a value that is not of the bracketed shape returns it
unchanged (one unfolding of `evalWithProperties`). -/
theorem eval_plain (props : List (String × String)) (f : Nat) (val : String)
    (h : (pyStartsWith val "$\x7b" && pyEndsWith val "\x7d") = false) :
    evalWithProperties props (f + 1) val = some val := by
  simp [evalWithProperties, h]

/-- Idempotence of interpolation: any terminating result is a fixed point. -/
theorem eval_idem (props : List (String × String)) :
    ∀ (f g : Nat) (val r : String), evalWithProperties props f val = some r →
      evalWithProperties props (g + 1) r = some r := by
  intro f
  induction f with
  | zero => intro g val r h; simp [evalWithProperties] at h
  | succ n ih =>
    intro g val r h
    rw [evalWithProperties] at h
    by_cases hc : (pyStartsWith val "$\x7b" && pyEndsWith val "\x7d") = true
    · rw [if_pos hc] at h
      cases hd : dictGet props (sliceTwoToLast val) with
      | some w => rw [hd] at h; exact ih g w r h
      | none =>
        rw [hd] at h
        have hr : r = "" := by cases h; rfl
        subst hr
        exact eval_plain props g "" (by decide)
    · rw [if_neg hc] at h
      have hr : r = val := by cases h; rfl
      rw [hr]
      exact eval_plain props g val (by simpa using hc)

/-! ### Claim C7 -/

/-- Claim C7: property interpolation replaces a value of the exact
`$\x7bname\x7d` form by recursively interpolating the table entry for
`name`, yields the empty string when `name` is absent, returns any value
not of that form unchanged, and is idempotent on resolved strings. -/
theorem eval_with_properties_spec :
    (∀ (props : List (String × String)) (f : Nat) (val : String),
      (pyStartsWith val "$\x7b" && pyEndsWith val "\x7d") = true →
      dictGet props (sliceTwoToLast val) = none →
      evalWithProperties props (f + 1) val = some "") ∧
    (∀ (props : List (String × String)) (f : Nat) (val w : String),
      (pyStartsWith val "$\x7b" && pyEndsWith val "\x7d") = true →
      dictGet props (sliceTwoToLast val) = some w →
      evalWithProperties props (f + 1) val = evalWithProperties props f w) ∧
    (∀ (props : List (String × String)) (f : Nat) (val : String),
      (pyStartsWith val "$\x7b" && pyEndsWith val "\x7d") = false →
      evalWithProperties props (f + 1) val = some val) ∧
    (∀ (props : List (String × String)) (f g : Nat) (val r : String),
      evalWithProperties props f val = some r →
      evalWithProperties props (g + 1) r = some r) := by
  refine ⟨?_, ?_, ?_, ?_⟩
  · intro props f val h1 h2; simp [evalWithProperties, h1, h2]
  · intro props f val w h1 h2; simp [evalWithProperties, h1, h2]
  · intro props f val h; exact eval_plain props f val h
  · intro props f g val r h; exact eval_idem props f g val r h

/-- Claim C7 witness: the four clauses at concrete inputs. -/
theorem eval_with_properties_spec_witness :
    evalWithProperties [("x", "1")] 3 "$\x7by\x7d" = some "" ∧
    evalWithProperties [("x", "1")] 3 "$\x7bx\x7d" = evalWithProperties [("x", "1")] 2 "1" ∧
    evalWithProperties [("x", "1")] 3 "plain" = some "plain" ∧
    evalWithProperties [("x", "1")] 4 "1" = some "1" :=
  ⟨eval_with_properties_spec.1 [("x", "1")] 2 "$\x7by\x7d" (by decide) (by decide),
   eval_with_properties_spec.2.1 [("x", "1")] 2 "$\x7bx\x7d" "1" (by decide) (by decide),
   eval_with_properties_spec.2.2.1 [("x", "1")] 2 "plain" (by decide),
   eval_with_properties_spec.2.2.2 [("x", "1")] 2 3 "1" "1" (by decide)⟩

/-! ### Claim C9 -/

/-- Claim C9 counterexample: a coordinate whose group contains a colon does
not round-trip: `parse(C.toString())` fails instead of returning `C`. -/
theorem parse_toString_colon_group :
    parseLib (MavenLib.toStringRepr ⟨"a:b", "c", "d"⟩) = none := by decide

/-- Claim C9 (amended): for every coordinate whose three fields contain no
colon character, parsing the `group:artifact:version` string form produced
from it yields the coordinate back. -/
theorem parse_toString_roundtrip (g a v : String)
    (hg : ':' ∉ g.data) (ha : ':' ∉ a.data) (hv : ':' ∉ v.data) :
    parseLib (MavenLib.mk g a v).toStringRepr = some (MavenLib.mk g a v) := by
  have hdata : (MavenLib.mk g a v).toStringRepr.data
      = g.data ++ ':' :: (a.data ++ ':' :: v.data) := by
    show (g ++ ":" ++ a ++ ":" ++ v).data = _
    rw [stringData_append, stringData_append, stringData_append, stringData_append]
    simp
  unfold parseLib
  rw [hdata, splitOnChar_sep_split _ _ _ hg, splitOnChar_sep_split _ _ _ ha,
    splitOnChar_no_sep _ _ hv]
  simp [stringMk_data]

/-- Claim C9 witness: the round-trip theorem applied at a concrete
colon-free coordinate. -/
theorem parse_toString_roundtrip_witness :
    parseLib (MavenLib.mk "org.x" "lib" "1.0").toStringRepr
      = some (MavenLib.mk "org.x" "lib" "1.0") :=
  parse_toString_roundtrip "org.x" "lib" "1.0" (by decide) (by decide) (by decide)

/-! ### Claim C4 -/

theorem parseLibsLoop_filterMap (ls : List String) :
    parseLibsLoop ls = ls.filterMap parseLib := by
  induction ls with
  | nil => rfl
  | cons x xs ih => cases h : parseLib x <;> simp [parseLibsLoop, h, ih]

/-- Claim C4 counterexample: the string "::" (three empty segments) is
accepted by coordinate parsing, producing an all-empty coordinate, whereas
the claim says any empty segment is rejected as malformed. -/
theorem parse_empty_segments_accepted :
    parseLib "::" = some (MavenLib.mk "" "" "") := by decide

/-- Claim C4 (amended): coordinate parsing succeeds exactly when the string
splits on `:` into exactly three segments — the segments may be empty — and
a malformed string is skipped by the parsing loop, affecting only that one
coordinate. -/
theorem parse_three_segments :
    (∀ s : String, (parseLib s).isSome = true ↔ (splitOnChar ':' s.data).length = 3) ∧
    (∀ s : String, parseDownloadLibraries s = (strSplitOn ',' s).filterMap parseLib) := by
  constructor
  · intro s
    unfold parseLib
    rcases hl : splitOnChar ':' s.data with _ | ⟨g, _ | ⟨a, _ | ⟨v, _ | ⟨w, rest⟩⟩⟩⟩ <;>
      simp
  · intro s
    exact parseLibsLoop_filterMap _

/-! ### Dependency declarations and their extraction

`ElementTree` access is modelled structurally: an element's optional child
is an outer `Option` (is the child element present?) whose payload is the
child's text, itself an `Option String` (`.text` may be `None`). -/

/-- A dependency dict as built by `MavenPom._create_dependency`:
`groupId` and `artifactId` always present, `scope` and `version` optional. -/
structure Dep where
  groupId : String
  artifactId : String
  scope : Option String
  version : Option String
deriving DecidableEq

/-- A `<dependency>` (or `<exclusion>`) element with its recognized
children; each child is (presence, text). -/
structure DepElem where
  groupId : Option (Option String)
  artifactId : Option (Option String)
  scope : Option (Option String)
  version : Option (Option String)
  optional : Option (Option String)
deriving DecidableEq

/-- Result of running a piece of the Python program: a value, an uncaught
exception, or divergence (out of fuel). -/
inductive PRes (α : Type) where
  | ok : α → PRes α
  | exn : String → PRes α
  | diverge : PRes α
deriving DecidableEq

/-- The version-conflict warning text printed by `_dependency_exist`. -/
def versionConflictWarning (dv depv g a : String) : String :=
  "Warning: different version " ++ dv ++ " and " ++ depv ++
    " for same library " ++ g ++ ":" ++ a

/-- `MavenPom._dependency_exist`: scan the accumulated dependencies for the
same group+artifact; equal version means "exists" (drop), a different
version prints a warning and means "does not exist" (keep).  Accessing a
missing `version` key raises `KeyError`. -/
def dependencyExist : List Dep → Dep → PRes (Bool × List String)
  | [], _ => .ok (false, [])
  | d :: ds, dep =>
    if d.groupId = dep.groupId ∧ d.artifactId = dep.artifactId then
      match d.version, dep.version with
      | some dv, some depv =>
        if dv = depv then .ok (true, [])
        else .ok (false, [versionConflictWarning dv depv d.groupId d.artifactId])
      | _, _ => .exn "KeyError: version"
    else dependencyExist ds dep

/-- Values of the `optional` flag that drop a dependency. -/
def optionalValues : List String := ["t", "true", "y", "yes", "1"]

/-- The explicit scopes that drop a dependency. -/
def scopeIsDropped (s : String) : Bool :=
  pyLower s = "compile" || pyLower s = "test"

/-- Tail of `_create_dependency` once the optional/scope filters passed:
build the dict (group and artifact interpolated, scope raw, version
interpolated) and run the duplicate check. -/
def finishDep (deps : List Dep) (dep : Dep) : PRes (Option Dep × List String) :=
  match dependencyExist deps dep with
  | .ok (true, w) => .ok (none, w)
  | .ok (false, w) => .ok (some dep, w)
  | .exn m => .exn m
  | .diverge => .diverge

/-- Middle of `_create_dependency`: the groupId/artifactId presence check
and dict construction.  A present child whose text is `None` raises
(`startswith` on `None`). -/
def createDependencyCore (props : List (String × String)) (evalFuel : Nat)
    (deps : List Dep) (e : DepElem) : PRes (Option Dep × List String) :=
  match e.groupId, e.artifactId with
  | some gText, some aText =>
    match gText with
    | none => .exn "AttributeError: startswith"
    | some gs =>
      match aText with
      | none => .exn "AttributeError: startswith"
      | some avs =>
        match evalWithProperties props evalFuel gs with
        | none => .diverge
        | some g2 =>
          match evalWithProperties props evalFuel avs with
          | none => .diverge
          | some a2 =>
            let scopeVal : Option String :=
              match e.scope with
              | some t => t
              | none => none
            match e.version with
            | some none => .exn "AttributeError: startswith"
            | some (some vs) =>
              match evalWithProperties props evalFuel vs with
              | none => .diverge
              | some v2 =>
                finishDep deps ⟨g2, a2, scopeVal, some v2⟩
            | none => finishDep deps ⟨g2, a2, scopeVal, none⟩
  | _, _ => .ok (none, [])

/-- Scope filter of `_create_dependency`: an explicit scope equal (after
lowering) to `compile` or `test` drops the declaration; a scope element
with no text raises (`lower` on `None`). -/
def createDependencyScope (props : List (String × String)) (evalFuel : Nat)
    (deps : List Dep) (e : DepElem) : PRes (Option Dep × List String) :=
  match e.scope with
  | some none => .exn "AttributeError: lower"
  | some (some s) =>
    if scopeIsDropped s then .ok (none, [])
    else createDependencyCore props evalFuel deps e
  | none => createDependencyCore props evalFuel deps e

/-- `MavenPom._create_dependency`: optional filter, then scope filter, then
construction and duplicate check. -/
def createDependency (props : List (String × String)) (evalFuel : Nat)
    (deps : List Dep) (e : DepElem) : PRes (Option Dep × List String) :=
  match e.optional with
  | some none => .exn "AttributeError: lower"
  | some (some t) =>
    if pyLower t ∈ optionalValues then .ok (none, [])
    else createDependencyScope props evalFuel deps e
  | none => createDependencyScope props evalFuel deps e

/-- Loop body of `MavenPom._extract_all_dependencies`: non-`None` created
dependencies are appended to the accumulated dependency list. -/
def extractDepsLoop (props : List (String × String)) (evalFuel : Nat) :
    List Dep → List String → List DepElem → PRes (List Dep × List String)
  | deps, log, [] => .ok (deps, log)
  | deps, log, e :: es =>
    match createDependency props evalFuel deps e with
    | .ok (some d, w) => extractDepsLoop props evalFuel (deps ++ [d]) (log ++ w) es
    | .ok (none, w) => extractDepsLoop props evalFuel deps (log ++ w) es
    | .exn m => .exn m
    | .diverge => .diverge

/-- Loop body of `MavenPom._extract_dependency_management`: entries are
appended to the management list, while the duplicate check inside
`_create_dependency` still consults the (separate) dependency list. -/
def extractDMLoop (props : List (String × String)) (evalFuel : Nat)
    (deps : List Dep) :
    List Dep → List String → List DepElem → PRes (List Dep × List String)
  | dm, log, [] => .ok (dm, log)
  | dm, log, e :: es =>
    match createDependency props evalFuel deps e with
    | .ok (some d, w) => extractDMLoop props evalFuel deps (dm ++ [d]) (log ++ w) es
    | .ok (none, w) => extractDMLoop props evalFuel deps dm (log ++ w) es
    | .exn m => .exn m
    | .diverge => .diverge

/-- `MavenPom._extract_dependency_exclusion`: `_create_dependency` is run on
each exclusion element and its value discarded; only its printed warnings
and raised exceptions are observable. -/
def processExclusions (props : List (String × String)) (evalFuel : Nat)
    (deps : List Dep) : List String → List DepElem → PRes (List String)
  | log, [] => .ok log
  | log, e :: es =>
    match createDependency props evalFuel deps e with
    | .ok (_, w) => processExclusions props evalFuel deps (log ++ w) es
    | .exn m => .exn m
    | .diverge => .diverge

/-- The `<dependencies>` block of a document: its `<dependency>` elements
and the `<exclusion>` descendants iterated by the exclusion pass. -/
structure DepsBlock where
  deps : List DepElem
  exclusions : List DepElem
deriving DecidableEq

/-- A parsed POM document: declared properties (name, text), the parent
coordinate extracted by `_extract_parent` (when all three children are
present), the `<dependencyManagement>` dependency elements (when that
element is present), and the `<dependencies>` block (when present). -/
structure PomDoc where
  properties : List (String × Option String)
  parent : Option MavenLib
  dependencyManagement : Option (List DepElem)
  dependencies : Option DepsBlock
deriving DecidableEq

/-- `MavenPom._extract_properties`: each property child with non-`None`
text is assigned into the property table. -/
def extractProperties (props : List (String × String)) :
    List (String × Option String) → List (String × String)
  | [] => props
  | (_, none) :: rest => extractProperties props rest
  | (n, some t) :: rest => extractProperties (dictSet props n t) rest

/-- The property table accumulated over the fetched documents, seeded by
the constructor with `project.version`. -/
def propsOfDocs (rootVersion : String) (docs : List PomDoc) : List (String × String) :=
  docs.foldl (fun p doc => extractProperties p doc.properties)
    (dictSet [] "project.version" rootVersion)

/-- The constructor's first post-fetch pass: `_extract_dependency_management`
over every fetched document.  Note that each call begins by resetting
`self._dependency_management` to the empty list, so the previous documents'
entries are discarded. -/
def dmPhase (props : List (String × String)) (evalFuel : Nat) :
    List Dep → List String → List PomDoc → PRes (List Dep × List String)
  | dm, log, [] => .ok (dm, log)
  | _dm, log, doc :: docs =>
    match doc.dependencyManagement with
    | none => dmPhase props evalFuel [] log docs
    | some elems =>
      match extractDMLoop props evalFuel [] [] log elems with
      | .ok (dm2, log2) => dmPhase props evalFuel dm2 log2 docs
      | .exn m => .exn m
      | .diverge => .diverge

/-- The constructor's second post-fetch pass: `_extract_all_dependencies`
then `_extract_dependency_exclusion` over every fetched document,
accumulating into one dependency list. -/
def depsPhase (props : List (String × String)) (evalFuel : Nat) :
    List Dep → List String → List PomDoc → PRes (List Dep × List String)
  | deps, log, [] => .ok (deps, log)
  | deps, log, doc :: docs =>
    match doc.dependencies with
    | none => depsPhase props evalFuel deps log docs
    | some blk =>
      match extractDepsLoop props evalFuel deps log blk.deps with
      | .ok (deps2, log2) =>
        match processExclusions props evalFuel deps2 log2 blk.exclusions with
        | .ok log3 => depsPhase props evalFuel deps2 log3 docs
        | .exn m => .exn m
        | .diverge => .diverge
      | .exn m => .exn m
      | .diverge => .diverge

/-- The state of a fully constructed `MavenPom` object. -/
structure PomState where
  properties : List (String × String)
  dependencies : List Dep
  dependencyManagement : List Dep
  log : List String
deriving DecidableEq

/-- The two post-fetch passes of the `MavenPom` constructor, given the
already accumulated property table. -/
def pomAssembleWith (props : List (String × String)) (evalFuel : Nat)
    (docs : List PomDoc) : PRes PomState :=
  match dmPhase props evalFuel [] [] docs with
  | .ok (dm, log1) =>
    match depsPhase props evalFuel [] log1 docs with
    | .ok (deps, log2) => .ok ⟨props, deps, dm, log2⟩
    | .exn m => .exn m
    | .diverge => .diverge
  | .exn m => .exn m
  | .diverge => .diverge

/-- The `MavenPom` constructor's processing of an already fetched document
chain (in fetch order). -/
def pomAssemble (rootVersion : String) (evalFuel : Nat) (docs : List PomDoc) :
    PRes PomState :=
  pomAssembleWith (propsOfDocs rootVersion docs) evalFuel docs

/-- `MavenPom._get_version_from_dependency_management`: first management
entry carrying a version whose interpolated group and artifact match wins;
no match yields the empty string. -/
def getVersionFromDM (props : List (String × String)) (evalFuel : Nat)
    (g a : String) : List Dep → PRes String
  | [] => .ok ""
  | d :: rest =>
    match d.version with
    | none => getVersionFromDM props evalFuel g a rest
    | some dv =>
      match evalWithProperties props evalFuel d.groupId with
      | none => .diverge
      | some dg =>
        if g = dg then
          match evalWithProperties props evalFuel d.artifactId with
          | none => .diverge
          | some da =>
            if a = da then
              match evalWithProperties props evalFuel dv with
              | none => .diverge
              | some v => .ok v
            else getVersionFromDM props evalFuel g a rest
        else getVersionFromDM props evalFuel g a rest

/-- Version resolution inside `get_all_dependencies`: a declaration with no
`version` key consults dependency management, otherwise its own version is
interpolated. -/
def resolveDepVersion (props : List (String × String)) (evalFuel : Nat)
    (g1 a1 : String) (dm : List Dep) : Option String → PRes String
  | none => getVersionFromDM props evalFuel g1 a1 dm
  | some v =>
    match evalWithProperties props evalFuel v with
    | none => .diverge
    | some v2 => .ok v2

/-- Loop of `MavenPom.get_all_dependencies`: interpolate group and artifact,
resolve the version (explicit, else from dependency management), and keep
the coordinate only when the resolved version is a non-empty string. -/
def getAllDepsLoop (props : List (String × String)) (dm : List Dep)
    (evalFuel : Nat) : List Dep → PRes (List MavenLib)
  | [] => .ok []
  | dep :: rest =>
    match evalWithProperties props evalFuel dep.groupId with
    | none => .diverge
    | some g1 =>
      match evalWithProperties props evalFuel dep.artifactId with
      | none => .diverge
      | some a1 =>
        match resolveDepVersion props evalFuel g1 a1 dm dep.version with
        | .ok version =>
          if version ≠ "" then
            match evalWithProperties props evalFuel g1,
                  evalWithProperties props evalFuel a1 with
            | some g2, some a2 =>
              match getAllDepsLoop props dm evalFuel rest with
              | .ok libs => .ok (MavenLib.mk g2 a2 version :: libs)
              | .exn m => .exn m
              | .diverge => .diverge
            | _, _ => .diverge
          else getAllDepsLoop props dm evalFuel rest
        | .exn m => .exn m
        | .diverge => .diverge

/-- `MavenPom.get_all_dependencies` on a constructed state. -/
def getAllDependencies (st : PomState) (evalFuel : Nat) : PRes (List MavenLib) :=
  getAllDepsLoop st.properties st.dependencyManagement evalFuel st.dependencies

/-- End-to-end resolution of a fetched document chain: constructor passes
followed by `get_all_dependencies`; returns the resolved coordinates and
the accumulated warnings. -/
def resolvedDependencies (rootVersion : String) (evalFuel : Nat)
    (docs : List PomDoc) : PRes (List MavenLib × List String) :=
  match pomAssemble rootVersion evalFuel docs with
  | .ok st =>
    match getAllDependencies st evalFuel with
    | .ok libs => .ok (libs, st.log)
    | .exn m => .exn m
    | .diverge => .diverge
  | .exn m => .exn m
  | .diverge => .diverge

/-- A dependency element with plain-text group, artifact and version and no
scope or optional children. -/
def depElemPlain (g a v : String) : DepElem :=
  ⟨some (some g), some (some a), none, some (some v), none⟩

/-- A dependency element with plain-text group and artifact, no version
element, and no scope or optional children. -/
def depElemNoVersion (g a : String) : DepElem :=
  ⟨some (some g), some (some a), none, none, none⟩

/-! ### Creation of plain dependency declarations -/

/-- A declaration with plain (non-placeholder) group, artifact and version
and no scope/optional children passes the filters; it is kept exactly when
the duplicate check says it does not already exist. -/
theorem createDependency_plain (props : List (String × String)) (f : Nat)
    (deps : List Dep) (g a v : String) (w : List String)
    (hg : (pyStartsWith g "$\x7b" && pyEndsWith g "\x7d") = false)
    (ha : (pyStartsWith a "$\x7b" && pyEndsWith a "\x7d") = false)
    (hv : (pyStartsWith v "$\x7b" && pyEndsWith v "\x7d") = false)
    (hex : dependencyExist deps ⟨g, a, none, some v⟩ = .ok (false, w)) :
    createDependency props (f + 1) deps (depElemPlain g a v)
      = .ok (some ⟨g, a, none, some v⟩, w) := by
  simp only [createDependency, depElemPlain, createDependencyScope, createDependencyCore]
  rw [eval_plain props f g hg, eval_plain props f a ha, eval_plain props f v hv]
  simp [finishDep, hex]

/-! ### Claim C8 -/

/-- Claim C8: a dependency declaration is excluded when it carries an
optional flag whose value lowers to one of t/true/y/yes/1, or an explicit
scope element whose value lowers to compile or test; a declaration with no
scope element is not excluded by the scope rule (a plain declaration with
no scope and no optional child is kept whenever the duplicate check
passes). -/
theorem dependency_filter_rules :
    (∀ (props : List (String × String)) (f : Nat) (deps : List Dep)
      (e : DepElem) (t : String), e.optional = some (some t) →
      pyLower t ∈ optionalValues →
      createDependency props f deps e = .ok (none, [])) ∧
    (∀ (props : List (String × String)) (f : Nat) (deps : List Dep)
      (e : DepElem) (s : String),
      (e.optional = none ∨ ∃ t, e.optional = some (some t) ∧ pyLower t ∉ optionalValues) →
      e.scope = some (some s) → scopeIsDropped s = true →
      createDependency props f deps e = .ok (none, [])) ∧
    (∀ (props : List (String × String)) (f : Nat) (deps : List Dep)
      (g a v : String) (w : List String),
      (pyStartsWith g "$\x7b" && pyEndsWith g "\x7d") = false →
      (pyStartsWith a "$\x7b" && pyEndsWith a "\x7d") = false →
      (pyStartsWith v "$\x7b" && pyEndsWith v "\x7d") = false →
      dependencyExist deps ⟨g, a, none, some v⟩ = .ok (false, w) →
      createDependency props (f + 1) deps (depElemPlain g a v)
        = .ok (some ⟨g, a, none, some v⟩, w)) := by
  refine ⟨?_, ?_, ?_⟩
  · intro props f deps e t hopt hin
    simp [createDependency, hopt, hin]
  · intro props f deps e s hopt hscope hdrop
    rcases hopt with h | ⟨t, ht, htn⟩
    · simp [createDependency, h, createDependencyScope, hscope, hdrop]
    · simp [createDependency, ht, htn, createDependencyScope, hscope, hdrop]
  · intro props f deps g a v w hg ha hv hex
    exact createDependency_plain props f deps g a v w hg ha hv hex

/-- Claim C8 witness: the three rules at concrete declarations. -/
theorem dependency_filter_rules_witness :
    createDependency [] 3 []
      ⟨some (some "g"), some (some "a"), none, some (some "1"), some (some "Yes")⟩
      = .ok (none, []) ∧
    createDependency [] 3 []
      ⟨some (some "g"), some (some "a"), some (some "Test"), some (some "1"), none⟩
      = .ok (none, []) ∧
    createDependency [] 3 [] (depElemPlain "g" "a" "1")
      = .ok (some ⟨"g", "a", none, some "1"⟩, []) :=
  ⟨dependency_filter_rules.1 [] 3 [] _ "Yes" rfl (by decide),
   dependency_filter_rules.2.1 [] 3 [] _ "Test" (Or.inl rfl) rfl (by decide),
   dependency_filter_rules.2.2 [] 2 [] "g" "a" "1" [] (by decide) (by decide)
     (by decide) (by decide)⟩

/-! ### Claim C1 -/

/-- A document declaring two dependencies on the same group+artifact with
two (possibly different) explicit versions. -/
def docConflict (g a v1 v2 : String) : PomDoc :=
  ⟨[], none, none, some ⟨[depElemPlain g a v1, depElemPlain g a v2], []⟩⟩

/-- Claim C1 counterexample: with two declarations resolving to the same
group+artifact and versions 1.0 and 2.0, `get_all_dependencies` keeps BOTH
coordinates — the later one is not dropped — while emitting the
version-conflict warning and not failing. -/
theorem version_conflict_counterexample :
    resolvedDependencies "0" 5 [docConflict "g" "a" "1.0" "2.0"]
      = .ok ([⟨"g", "a", "1.0"⟩, ⟨"g", "a", "2.0"⟩],
          [versionConflictWarning "1.0" "2.0" "g" "a"]) := by decide

/-- The duplicate check on a same-coordinate pair with two different
versions: warns and reports "not existing" (so the newcomer is kept). -/
theorem dependencyExist_conflict (g a v1 v2 : String) (hne : v1 ≠ v2) :
    dependencyExist [⟨g, a, none, some v1⟩] ⟨g, a, none, some v2⟩
      = .ok (false, [versionConflictWarning v1 v2 g a]) := by
  simp [dependencyExist, hne]

/-- Claim C1 (amended): when two dependency declarations resolve to the
same group+artifact with two different non-empty versions, a non-fatal
version-conflict warning is emitted and BOTH coordinates are kept in the
resolved-dependencies list (only an exact duplicate with an equal version
would be dropped); resolution does not fail. -/
theorem version_conflict_keeps_both (rv g a v1 v2 : String) (f : Nat)
    (hg : (pyStartsWith g "$\x7b" && pyEndsWith g "\x7d") = false)
    (ha : (pyStartsWith a "$\x7b" && pyEndsWith a "\x7d") = false)
    (hv1 : (pyStartsWith v1 "$\x7b" && pyEndsWith v1 "\x7d") = false)
    (hv2 : (pyStartsWith v2 "$\x7b" && pyEndsWith v2 "\x7d") = false)
    (hne : v1 ≠ v2) (hne1 : v1 ≠ "") (hne2 : v2 ≠ "") :
    resolvedDependencies rv (f + 1) [docConflict g a v1 v2]
      = .ok ([⟨g, a, v1⟩, ⟨g, a, v2⟩], [versionConflictWarning v1 v2 g a]) := by
  have e1 := createDependency_plain [("project.version", rv)] f [] g a v1 []
    hg ha hv1 rfl
  have e2 := createDependency_plain [("project.version", rv)]
    f [⟨g, a, none, some v1⟩] g a v2 [versionConflictWarning v1 v2 g a]
    hg ha hv2 (dependencyExist_conflict g a v1 v2 hne)
  have hgp := eval_plain [("project.version", rv)] f g hg
  have hap := eval_plain [("project.version", rv)] f a ha
  have hv1p := eval_plain [("project.version", rv)] f v1 hv1
  have hv2p := eval_plain [("project.version", rv)] f v2 hv2
  simp [resolvedDependencies, pomAssemble, propsOfDocs, extractProperties,
    dictSet, pomAssembleWith, dmPhase,
    depsPhase, docConflict, extractDepsLoop, processExclusions,
    getAllDependencies, getAllDepsLoop, resolveDepVersion,
    e1, e2, hgp, hap, hv1p, hv2p, hne1, hne2]

/-- Claim C1 witness: the amended theorem at a concrete conflicting pair. -/
theorem version_conflict_keeps_both_witness :
    resolvedDependencies "0" 5 [docConflict "gr" "ar" "1.1" "2.2"]
      = .ok ([⟨"gr", "ar", "1.1"⟩, ⟨"gr", "ar", "2.2"⟩],
          [versionConflictWarning "1.1" "2.2" "gr" "ar"]) :=
  version_conflict_keeps_both "0" "gr" "ar" "1.1" "2.2" 4 (by decide) (by decide)
    (by decide) (by decide) (by decide) (by decide) (by decide)

/-! ### Claim C2 -/

/-- The root document of the C2 scenario: its own dependency-management
entry `g:c:3.0`, a parent declaration, and a direct dependency on `g:c`
with no version. -/
def docC2Root : PomDoc :=
  ⟨[], some ⟨"g", "p", "1"⟩, some [depElemPlain "g" "c" "3.0"],
    some ⟨[depElemNoVersion "g" "c"], []⟩⟩

/-- The parent document of the C2 scenario: no dependency management. -/
def docC2Parent : PomDoc := ⟨[], none, none, none⟩

/-- Claim C2, evaluated at the failing input: with the chain
root-then-parent, the per-document reset of `_dependency_management` leaves
the management list EMPTY (the root's entry `g:c:3.0` is discarded because
the parent document is scanned after it), so the version-less dependency
`g:c` is silently dropped; with the root document alone the same entry is
retained and the dependency resolves to `g:c:3.0`. -/
theorem dm_reset_drops_entries :
    (pomAssemble "1.0" 5 [docC2Root, docC2Parent]
      = .ok ⟨[("project.version", "1.0")], [⟨"g", "c", none, none⟩], [], []⟩) ∧
    (resolvedDependencies "1.0" 5 [docC2Root, docC2Parent] = .ok ([], [])) ∧
    (resolvedDependencies "1.0" 5 [docC2Root]
      = .ok ([⟨"g", "c", "3.0"⟩], [])) := by
  refine ⟨by decide, by decide, by decide⟩

/-! ### Claim C10 -/

/-- Every coordinate produced by the `get_all_dependencies` loop carries a
non-empty version: declarations whose resolved version is empty are
dropped by the truthiness guard. -/
theorem getAllDepsLoop_version_nonempty (props : List (String × String))
    (dm : List Dep) (f : Nat) :
    ∀ (deps : List Dep) (libs : List MavenLib),
      getAllDepsLoop props dm f deps = .ok libs →
      ∀ l ∈ libs, l.version ≠ "" := by
  intro deps
  induction deps with
  | nil =>
    intro libs h l hl
    rw [getAllDepsLoop] at h
    cases h
    simp at hl
  | cons dep rest ih =>
    intro libs h l hl
    rw [getAllDepsLoop] at h
    cases hg : evalWithProperties props f dep.groupId with
    | none => simp only [hg] at h; exact PRes.noConfusion h
    | some g1 =>
      simp only [hg] at h
      cases ha : evalWithProperties props f dep.artifactId with
      | none => simp only [ha] at h; exact PRes.noConfusion h
      | some a1 =>
        simp only [ha] at h
        cases hvr : resolveDepVersion props f g1 a1 dm dep.version with
        | exn m => simp only [hvr] at h; exact PRes.noConfusion h
        | diverge => simp only [hvr] at h; exact PRes.noConfusion h
        | ok version =>
          simp only [hvr] at h
          by_cases hver : version ≠ ""
          · rw [if_pos hver] at h
            cases hg2 : evalWithProperties props f g1 with
            | none => simp only [hg2] at h; exact PRes.noConfusion h
            | some g2 =>
              simp only [hg2] at h
              cases ha2 : evalWithProperties props f a1 with
              | none => simp only [ha2] at h; exact PRes.noConfusion h
              | some a2 =>
                simp only [ha2] at h
                cases hrec : getAllDepsLoop props dm f rest with
                | exn m => simp only [hrec] at h; exact PRes.noConfusion h
                | diverge => simp only [hrec] at h; exact PRes.noConfusion h
                | ok libs2 =>
                  simp only [hrec] at h
                  cases h
                  rcases List.mem_cons.mp hl with hhead | htail
                  · subst hhead; exact hver
                  · exact ih libs2 hrec l htail
          · rw [if_neg hver] at h
            exact ih libs h l hl

/-- The C10 document: a dependency whose groupId is a placeholder naming an
absent property, with an explicit version. -/
def docC10 : PomDoc :=
  ⟨[], none, none,
    some ⟨[⟨some (some "$\x7bmissing\x7d"), some (some "a"), none,
      some (some "1.0"), none⟩], []⟩⟩

/-- Claim C10: every coordinate returned by `get_all_dependencies` has a
non-empty version, but no such guarantee holds for the group: a dependency
whose groupId is a placeholder for an absent property (with an explicit
version) yields a coordinate with an empty groupId. -/
theorem resolved_version_nonempty_group_not :
    (∀ (st : PomState) (f : Nat) (libs : List MavenLib),
      getAllDependencies st f = .ok libs → ∀ l ∈ libs, l.version ≠ "") ∧
    (resolvedDependencies "1.0" 5 [docC10] = .ok ([⟨"", "a", "1.0"⟩], [])) := by
  constructor
  · intro st f libs h l hl
    exact getAllDepsLoop_version_nonempty st.properties st.dependencyManagement f
      st.dependencies libs h l hl
  · decide

/-- Claim C10 witness: the universal part applied to a concrete state. -/
theorem resolved_version_nonempty_group_not_witness :
    getAllDependencies ⟨[], [⟨"", "a", none, some "1.0"⟩], [], []⟩ 3
      = .ok [⟨"", "a", "1.0"⟩] ∧ ("1.0" : String) ≠ "" :=
  ⟨by decide,
   resolved_version_nonempty_group_not.1 ⟨[], [⟨"", "a", none, some "1.0"⟩], [], []⟩ 3
     [⟨"", "a", "1.0"⟩] (by decide) ⟨"", "a", "1.0"⟩ (by simp)⟩

/-! ### The metadata fetcher (`MavenPomDownloader`) -/

/-- Outcome of a single `requests.get`: a status/body response or a raised
transport exception. -/
inductive HttpResult where
  | resp (status : Nat) (text : String)
  | exn (msg : String)
deriving DecidableEq

/-- The network, as a pure oracle from full URLs to outcomes. -/
def Network : Type := String → HttpResult

/-- The loop of `download_pom_file`: try each base URL in order; the first
response with status in 200..299 is returned with its base URL; transport
exceptions and non-2xx responses fall through to the next URL.  The second
component counts the `requests.get` calls performed. -/
def tryUrls (net : Network) (lib : MavenLib) : List String → Option (String × String) × Nat
  | [] => (none, 0)
  | base :: rest =>
    match net (base ++ "/" ++ lib.relativePomPath) with
    | .resp code text =>
      if 200 ≤ code ∧ code < 300 then (some (text, base), 1)
      else
        let r := tryUrls net lib rest
        (r.1, r.2 + 1)
    | .exn _ =>
      let r := tryUrls net lib rest
      (r.1, r.2 + 1)

/-- The mutable state of a `MavenPomDownloader`: its result cache, plus an
instrumentation counter of network metadata requests. -/
structure DLState where
  cache : List (MavenLib × Option (String × String))
  netFetches : Nat
deriving DecidableEq

/-- Cache lookup by coordinate equality. -/
def cacheLookup : List (MavenLib × Option (String × String)) → MavenLib →
    Option (Option (String × String))
  | [], _ => none
  | (l, r) :: rest, lib => if l = lib then some r else cacheLookup rest lib

/-- `MavenPomDownloader.download_pom_file`: serve from the cache when the
coordinate was already looked up (successfully or not); otherwise run the
URL loop and cache its result (also when empty). -/
def downloadPomFile (net : Network) (baseUrls : List String) (dl : DLState)
    (lib : MavenLib) : Option (String × String) × DLState :=
  match cacheLookup dl.cache lib with
  | some r => (r, dl)
  | none =>
    let rn := tryUrls net lib baseUrls
    (rn.1, ⟨dl.cache ++ [(lib, rn.1)], dl.netFetches + rn.2⟩)

/-- Does this base URL fail for this coordinate (non-2xx response or
transport exception)? -/
def urlFails (net : Network) (lib : MavenLib) (u : String) : Bool :=
  match net (u ++ "/" ++ lib.relativePomPath) with
  | .resp code _ => if 200 ≤ code ∧ code < 300 then false else true
  | .exn _ => true

/-! ### Claim C6 -/

/-- All-failing prefixes are skipped: the URL loop on a failing list
returns the empty result after consulting every entry. -/
theorem tryUrls_all_fail (net : Network) (lib : MavenLib) :
    ∀ us : List String, (∀ u ∈ us, urlFails net lib u = true) →
      tryUrls net lib us = (none, us.length) := by
  intro us
  induction us with
  | nil => intro _; rfl
  | cons b rest ih =>
    intro hall
    have hb : urlFails net lib b = true := hall b (List.mem_cons_self b rest)
    have hrest : ∀ u ∈ rest, urlFails net lib u = true :=
      fun u hu => hall u (List.mem_cons_of_mem _ hu)
    unfold urlFails at hb
    cases hnet : net (b ++ "/" ++ lib.relativePomPath) with
    | resp code text =>
      simp only [hnet] at hb
      by_cases hc : 200 ≤ code ∧ code < 300
      · rw [if_pos hc] at hb; cases hb
      · rw [tryUrls]
        simp only [hnet]
        rw [if_neg hc, ih hrest]
        simp [List.length_cons]
    | exn m =>
      rw [tryUrls]
      simp only [hnet]
      rw [ih hrest]
      simp [List.length_cons]

/-- Claim C6: the fetcher tries base locations in order; the first location
answering 2xx supplies the returned document and recorded source base, and
exactly the locations up to it are consulted; when every location fails the
result is empty (not an error); and on a cache miss `download_pom_file`
returns exactly the URL loop's result and caches it. -/
theorem pom_fetch_first_success :
    (∀ (net : Network) (lib : MavenLib) (us1 us2 : List String) (b : String)
      (code : Nat) (text : String),
      (∀ u ∈ us1, urlFails net lib u = true) →
      net (b ++ "/" ++ lib.relativePomPath) = .resp code text →
      200 ≤ code → code < 300 →
      tryUrls net lib (us1 ++ b :: us2) = (some (text, b), us1.length + 1)) ∧
    (∀ (net : Network) (lib : MavenLib) (us : List String),
      (∀ u ∈ us, urlFails net lib u = true) →
      tryUrls net lib us = (none, us.length)) ∧
    (∀ (net : Network) (baseUrls : List String) (dl : DLState) (lib : MavenLib),
      cacheLookup dl.cache lib = none →
      downloadPomFile net baseUrls dl lib =
        ((tryUrls net lib baseUrls).1,
          ⟨dl.cache ++ [(lib, (tryUrls net lib baseUrls).1)],
            dl.netFetches + (tryUrls net lib baseUrls).2⟩)) := by
  refine ⟨?_, tryUrls_all_fail, ?_⟩
  · intro net lib us1
    induction us1 with
    | nil =>
      intro us2 b code text _ hnet h1 h2
      have hc : 200 ≤ code ∧ code < 300 := ⟨h1, h2⟩
      rw [List.nil_append, tryUrls]
      simp only [hnet]
      rw [if_pos hc]
      rfl
    | cons u us ih =>
      intro us2 b code text hall hnet h1 h2
      have hu : urlFails net lib u = true := hall u (List.mem_cons_self u us)
      have hrest : ∀ x ∈ us, urlFails net lib x = true :=
        fun x hx => hall x (List.mem_cons_of_mem _ hx)
      unfold urlFails at hu
      cases hnetu : net (u ++ "/" ++ lib.relativePomPath) with
      | resp c t =>
        simp only [hnetu] at hu
        by_cases hc : 200 ≤ c ∧ c < 300
        · rw [if_pos hc] at hu; cases hu
        · rw [List.cons_append, tryUrls]
          simp only [hnetu]
          rw [if_neg hc, ih us2 b code text hrest hnet h1 h2]
          simp [List.length_cons]
      | exn m =>
        rw [List.cons_append, tryUrls]
        simp only [hnetu]
        rw [ih us2 b code text hrest hnet h1 h2]
        simp [List.length_cons]
  · intro net baseUrls dl lib hmiss
    rw [downloadPomFile, hmiss]

/-- Claim C6 witness: two base locations, the first answering 404 and the
second 200 — the returned document and source base are the second
location's, and the all-fail and cache-miss clauses at concrete inputs. -/
theorem pom_fetch_first_success_witness :
    tryUrls
      (fun u => if u = "B/g/a/1/a-1.pom" then .resp 200 "doc"
                else .resp 404 "")
      ⟨"g", "a", "1"⟩ ["A", "B"] = (some ("doc", "B"), 2) ∧
    tryUrls (fun _ => .resp 404 "") ⟨"g", "a", "1"⟩ ["A", "B"] = (none, 2) ∧
    downloadPomFile (fun _ => .resp 404 "") ["A"] ⟨[], 0⟩ ⟨"g", "a", "1"⟩
      = (none, ⟨[(⟨"g", "a", "1"⟩, none)], 1⟩) :=
  ⟨pom_fetch_first_success.1
      (fun u => if u = "B/g/a/1/a-1.pom" then .resp 200 "doc" else .resp 404 "")
      ⟨"g", "a", "1"⟩ ["A"] [] "B" 200 "doc" (by decide) (by decide)
      (by decide) (by decide),
   pom_fetch_first_success.2.1 (fun _ => .resp 404 "") ⟨"g", "a", "1"⟩ ["A", "B"]
      (by decide),
   pom_fetch_first_success.2.2 (fun _ => .resp 404 "") ["A"] ⟨[], 0⟩ ⟨"g", "a", "1"⟩
      (by decide)⟩

/-! ### `MavenPom` construction over the network -/

/-- A parse oracle standing in for `ET.fromstring`. -/
def ParseFun : Type := String → PomDoc

/-- The fetch-time data of a constructed `MavenPom`: the per-coordinate
source base URL map, the fetched documents in fetch order, and the final
extraction state. -/
structure Pom where
  libBaseUrl : List (MavenLib × String)
  allPoms : List PomDoc
  pstate : PomState
deriving DecidableEq

/-- Result of constructing a `MavenPom`: success with the updated
downloader state and the object, an uncaught exception (the cache mutation
survives, so the state is carried), or divergence. -/
inductive MRes where
  | ok (dl : DLState) (pom : Pom)
  | exn (msg : String) (dl : DLState)
  | diverge
deriving DecidableEq

/-- The constructor's fetch loop: pop a coordinate off the work list
(Python pops from the end), fetch its document through the caching
downloader; on success record the supplying base URL, collect the parsed
document, extract its properties, and push its declared parent.  Fuel
bounds the unguarded parent-chain walk. -/
def fetchPhase (net : Network) (baseUrls : List String) (parse : ParseFun) :
    Nat → List MavenLib → DLState → List (MavenLib × String) → List PomDoc →
    List (String × String) →
    Option (DLState × List (MavenLib × String) × List PomDoc × List (String × String))
  | _, [], dl, lbu, poms, props => some (dl, lbu, poms, props)
  | 0, _ :: _, _, _, _, _ => none
  | fuel + 1, p :: ps, dl, lbu, poms, props =>
    match (p :: ps).reverse with
    | [] => some (dl, lbu, poms, props)
    | parent :: restRev =>
      match downloadPomFile net baseUrls dl parent with
      | (none, dlA) =>
        fetchPhase net baseUrls parse fuel restRev.reverse dlA lbu poms props
      | (some (content, base), dlA) =>
        match (parse content).parent with
        | some par =>
          fetchPhase net baseUrls parse fuel (restRev.reverse ++ [par]) dlA
            ((parent, base) :: lbu) (poms ++ [parse content])
            (extractProperties props (parse content).properties)
        | none =>
          fetchPhase net baseUrls parse fuel restRev.reverse dlA
            ((parent, base) :: lbu) (poms ++ [parse content])
            (extractProperties props (parse content).properties)

/-- `MavenPom.__init__`: fetch the chain (seeding the property table with
`project.version`), then run the dependency-management pass and the
dependency/exclusion pass over all fetched documents. -/
def mavenPomNew (net : Network) (baseUrls : List String) (parse : ParseFun)
    (fetchFuel evalFuel : Nat) (dl : DLState) (lib : MavenLib) : MRes :=
  match fetchPhase net baseUrls parse fetchFuel [lib] dl [] []
      (dictSet [] "project.version" lib.version) with
  | none => .diverge
  | some (dl2, lbu, poms, props) =>
    match dmPhase props evalFuel [] [] poms with
    | .exn m => .exn m dl2
    | .diverge => .diverge
    | .ok (dm, log1) =>
      match depsPhase props evalFuel [] log1 poms with
      | .exn m => .exn m dl2
      | .diverge => .diverge
      | .ok (deps, log2) => .ok dl2 ⟨lbu, poms, ⟨props, deps, dm, log2⟩⟩

/-- Dictionary lookup for `_lib_base_url` (most recent entry first). -/
def lbuLookup : List (MavenLib × String) → MavenLib → String
  | [], _ => ""
  | (l, b) :: rest, lib => if l = lib then b else lbuLookup rest lib

/-- `MavenPom.get_lib_base_url`: the recorded base URL or the empty string. -/
def getLibBaseUrl (pom : Pom) (lib : MavenLib) : String :=
  lbuLookup pom.libBaseUrl lib

/-! ### The resolution driver (`MavenLibraryDownloader`) -/

/-- The state of a `MavenLibraryDownloader` run: the shared downloader
state, the visited list `_downloaded_libraries`, and the record of package
(jar) retrieval attempts as (base URL, coordinate) pairs. -/
structure LDState where
  dl : DLState
  downloadedLibraries : List MavenLib
  jarDownloads : List (String × MavenLib)
deriving DecidableEq

/-- Result of `MavenLibraryDownloader.download`. -/
inductive DRes where
  | ok (st : LDState)
  | exn (msg : String) (st : LDState)
  | diverge
deriving DecidableEq

/-- The dependency loop at the end of `download`, parameterized by the
recursive call: already-visited coordinates are skipped, the others are
recursed into. -/
def downloadLoop (dlFun : LDState → MavenLib → DRes) :
    List MavenLib → LDState → DRes
  | [], st => .ok st
  | dep :: rest, st =>
    if dep ∈ st.downloadedLibraries then downloadLoop dlFun rest st
    else
      match dlFun st dep with
      | .ok st2 => downloadLoop dlFun rest st2
      | .exn m st2 => .exn m st2
      | .diverge => .diverge

/-- `MavenLibraryDownloader.download`: construct the `MavenPom`; when it
fetched at least one document, resolve its dependencies, retrieve the
package when a source base URL was recorded for the coordinate, append the
coordinate to the visited list, and recurse into unvisited dependencies.
Fuel bounds the recursion depth. -/
def download (net : Network) (baseUrls : List String) (parse : ParseFun)
    (fetchFuel evalFuel : Nat) : Nat → LDState → MavenLib → DRes
  | 0, _, _ => .diverge
  | recFuel + 1, st, lib =>
    match mavenPomNew net baseUrls parse fetchFuel evalFuel st.dl lib with
    | .diverge => .diverge
    | .exn m dl2 => .exn m ⟨dl2, st.downloadedLibraries, st.jarDownloads⟩
    | .ok dl2 pom =>
      if pom.allPoms.isEmpty then .ok ⟨dl2, st.downloadedLibraries, st.jarDownloads⟩
      else
        match getAllDependencies pom.pstate evalFuel with
        | .diverge => .diverge
        | .exn m => .exn m ⟨dl2, st.downloadedLibraries, st.jarDownloads⟩
        | .ok deps =>
          let baseUrl := getLibBaseUrl pom lib
          downloadLoop (download net baseUrls parse fetchFuel evalFuel recFuel) deps
            ⟨dl2, st.downloadedLibraries ++ [lib],
              st.jarDownloads ++ (if baseUrl ≠ "" then [(baseUrl, lib)] else [])⟩

/-- Per-top-level-library outcome in `main`: normal completion, or an
exception caught by the per-library try/except. -/
inductive Outcome where
  | ok (st : LDState)
  | caught (msg : String) (st : LDState)
deriving DecidableEq

/-- The loop of `main`: one fresh `MavenLibraryDownloader` per requested
library, all sharing one `MavenPomDownloader` cache; an exception from one
library's traversal is caught and the loop continues with the next
library.  `none` models divergence. -/
def mainLoop (net : Network) (baseUrls : List String) (parse : ParseFun)
    (fetchFuel evalFuel recFuel : Nat) :
    List MavenLib → DLState → Option (List Outcome × DLState)
  | [], dl => some ([], dl)
  | lib :: rest, dl =>
    match download net baseUrls parse fetchFuel evalFuel recFuel ⟨dl, [], []⟩ lib with
    | .ok st =>
      match mainLoop net baseUrls parse fetchFuel evalFuel recFuel rest st.dl with
      | some (os, dl2) => some (.ok st :: os, dl2)
      | none => none
    | .exn m st =>
      match mainLoop net baseUrls parse fetchFuel evalFuel recFuel rest st.dl with
      | some (os, dl2) => some (.caught m st :: os, dl2)
      | none => none
    | .diverge => none

/-! ### Cache lemmas for the revisit analysis -/

/-- Every cache entry of the first state is still visible in the second. -/
def cacheExtends (d1 d2 : DLState) : Prop :=
  ∀ l r, cacheLookup d1.cache l = some r → cacheLookup d2.cache l = some r

theorem cacheExtends_refl (d : DLState) : cacheExtends d d := fun _ _ h => h

theorem cacheExtends_trans {d1 d2 d3 : DLState}
    (h12 : cacheExtends d1 d2) (h23 : cacheExtends d2 d3) : cacheExtends d1 d3 :=
  fun l r h => h23 l r (h12 l r h)

theorem cacheLookup_append_of_some (c : List (MavenLib × Option (String × String)))
    (xs : List (MavenLib × Option (String × String))) (l : MavenLib)
    (r : Option (String × String)) (h : cacheLookup c l = some r) :
    cacheLookup (c ++ xs) l = some r := by
  induction c with
  | nil => cases h
  | cons e rest ih =>
    rw [cacheLookup] at h
    rcases e with ⟨k, v⟩
    by_cases hk : k = l
    · rw [if_pos hk] at h
      rw [List.cons_append, cacheLookup, if_pos hk]
      exact h
    · rw [if_neg hk] at h
      rw [List.cons_append, cacheLookup, if_neg hk]
      exact ih h

theorem cacheLookup_append_self (c : List (MavenLib × Option (String × String)))
    (l : MavenLib) (r : Option (String × String))
    (h : cacheLookup c l = none) :
    cacheLookup (c ++ [(l, r)]) l = some r := by
  induction c with
  | nil => simp [cacheLookup]
  | cons e rest ih =>
    rw [cacheLookup] at h
    rcases e with ⟨k, v⟩
    by_cases hk : k = l
    · rw [if_pos hk] at h; cases h
    · rw [if_neg hk] at h
      rw [List.cons_append, cacheLookup, if_neg hk]
      exact ih h

/-- A cached coordinate is served from the cache with the state unchanged. -/
theorem downloadPomFile_cached (net : Network) (baseUrls : List String)
    (dl : DLState) (lib : MavenLib) (r : Option (String × String))
    (h : cacheLookup dl.cache lib = some r) :
    downloadPomFile net baseUrls dl lib = (r, dl) := by
  rw [downloadPomFile, h]

/-- After any `download_pom_file` call the coordinate's result is cached. -/
theorem downloadPomFile_post (net : Network) (baseUrls : List String)
    (dl : DLState) (lib : MavenLib) (r : Option (String × String)) (dl2 : DLState)
    (h : downloadPomFile net baseUrls dl lib = (r, dl2)) :
    cacheLookup dl2.cache lib = some r := by
  rw [downloadPomFile] at h
  cases hc : cacheLookup dl.cache lib with
  | some r0 =>
    rw [hc] at h
    cases h
    exact hc
  | none =>
    rw [hc] at h
    cases h
    exact cacheLookup_append_self dl.cache lib _ hc

/-- `download_pom_file` never removes nor shadows existing cache entries. -/
theorem downloadPomFile_mono (net : Network) (baseUrls : List String)
    (dl : DLState) (lib : MavenLib) (r : Option (String × String)) (dl2 : DLState)
    (h : downloadPomFile net baseUrls dl lib = (r, dl2)) :
    cacheExtends dl dl2 := by
  rw [downloadPomFile] at h
  cases hc : cacheLookup dl.cache lib with
  | some r0 =>
    rw [hc] at h
    cases h
    exact cacheExtends_refl dl
  | none =>
    rw [hc] at h
    cases h
    intro l r0 hl
    exact cacheLookup_append_of_some dl.cache _ l r0 hl

/-- The fetch loop only grows the cache. -/
theorem fetchPhase_mono (net : Network) (baseUrls : List String) (parse : ParseFun) :
    ∀ (fuel : Nat) (ps : List MavenLib) (dl : DLState)
      (lbu : List (MavenLib × String)) (poms : List PomDoc)
      (props : List (String × String)) (dl2 : DLState)
      (lbu2 : List (MavenLib × String)) (poms2 : List PomDoc)
      (props2 : List (String × String)),
      fetchPhase net baseUrls parse fuel ps dl lbu poms props
        = some (dl2, lbu2, poms2, props2) →
      cacheExtends dl dl2 := by
  intro fuel
  induction fuel with
  | zero =>
    intro ps dl lbu poms props dl2 lbu2 poms2 props2 h
    cases ps with
    | nil => rw [fetchPhase] at h; cases h; exact cacheExtends_refl dl
    | cons p ps' => rw [fetchPhase] at h; cases h
  | succ n ih =>
    intro ps dl lbu poms props dl2 lbu2 poms2 props2 h
    cases ps with
    | nil => rw [fetchPhase] at h; cases h; exact cacheExtends_refl dl
    | cons p ps' =>
      rw [fetchPhase] at h
      cases hrev : (p :: ps').reverse with
      | nil => simp only [hrev] at h; cases h; exact cacheExtends_refl dl
      | cons parent restRev =>
        simp only [hrev] at h
        rcases hrd : downloadPomFile net baseUrls dl parent with ⟨res, dlA⟩
        have hmono := downloadPomFile_mono net baseUrls dl parent res dlA hrd
        simp only [hrd] at h
        cases res with
        | none => exact cacheExtends_trans hmono (ih _ _ _ _ _ _ _ _ _ h)
        | some cb =>
          rcases cb with ⟨content, base⟩
          cases hpar : (parse content).parent with
          | some par =>
            simp only [hpar] at h
            exact cacheExtends_trans hmono (ih _ _ _ _ _ _ _ _ _ h)
          | none =>
            simp only [hpar] at h
            exact cacheExtends_trans hmono (ih _ _ _ _ _ _ _ _ _ h)

/-- Replaying the fetch loop against any state that already holds all the
cache entries of the first run's final state changes nothing and produces
the same outputs. -/
theorem fetchPhase_replay (net : Network) (baseUrls : List String) (parse : ParseFun) :
    ∀ (fuel : Nat) (ps : List MavenLib) (dl : DLState)
      (lbu : List (MavenLib × String)) (poms : List PomDoc)
      (props : List (String × String)) (dl2 : DLState)
      (lbu2 : List (MavenLib × String)) (poms2 : List PomDoc)
      (props2 : List (String × String)),
      fetchPhase net baseUrls parse fuel ps dl lbu poms props
        = some (dl2, lbu2, poms2, props2) →
      ∀ d : DLState, cacheExtends dl2 d →
        fetchPhase net baseUrls parse fuel ps d lbu poms props
          = some (d, lbu2, poms2, props2) := by
  intro fuel
  induction fuel with
  | zero =>
    intro ps dl lbu poms props dl2 lbu2 poms2 props2 h d hext
    cases ps with
    | nil => rw [fetchPhase] at h ⊢; cases h; rfl
    | cons p ps' => rw [fetchPhase] at h; cases h
  | succ n ih =>
    intro ps dl lbu poms props dl2 lbu2 poms2 props2 h d hext
    cases ps with
    | nil => rw [fetchPhase] at h ⊢; cases h; rfl
    | cons p ps' =>
      rw [fetchPhase] at h ⊢
      cases hrev : (p :: ps').reverse with
      | nil => simp only [hrev] at h ⊢; cases h; rfl
      | cons parent restRev =>
        simp only [hrev] at h ⊢
        rcases hrd : downloadPomFile net baseUrls dl parent with ⟨res, dlA⟩
        simp only [hrd] at h
        have hpost := downloadPomFile_post net baseUrls dl parent res dlA hrd
        cases res with
        | none =>
          have hA2 : cacheExtends dlA dl2 :=
            fetchPhase_mono net baseUrls parse n _ _ _ _ _ _ _ _ _ h
          have hd : cacheLookup d.cache parent = some none :=
            hext parent none (hA2 parent none hpost)
          rw [downloadPomFile_cached net baseUrls d parent none hd]
          exact ih _ _ _ _ _ _ _ _ _ h d hext
        | some cb =>
          rcases cb with ⟨content, base⟩
          cases hpar : (parse content).parent with
          | some par =>
            simp only [hpar] at h
            have hA2 : cacheExtends dlA dl2 :=
              fetchPhase_mono net baseUrls parse n _ _ _ _ _ _ _ _ _ h
            have hd : cacheLookup d.cache parent = some (some (content, base)) :=
              hext parent _ (hA2 parent _ hpost)
            rw [downloadPomFile_cached net baseUrls d parent _ hd]
            simp only [hpar]
            exact ih _ _ _ _ _ _ _ _ _ h d hext
          | none =>
            simp only [hpar] at h
            have hA2 : cacheExtends dlA dl2 :=
              fetchPhase_mono net baseUrls parse n _ _ _ _ _ _ _ _ _ h
            have hd : cacheLookup d.cache parent = some (some (content, base)) :=
              hext parent _ (hA2 parent _ hpost)
            rw [downloadPomFile_cached net baseUrls d parent _ hd]
            simp only [hpar]
            exact ih _ _ _ _ _ _ _ _ _ h d hext

/-- A successful `MavenPom` construction only grows the cache. -/
theorem mavenPomNew_mono (net : Network) (baseUrls : List String) (parse : ParseFun)
    (fetchFuel evalFuel : Nat) (dl : DLState) (lib : MavenLib) (dl2 : DLState)
    (pom : Pom) (h : mavenPomNew net baseUrls parse fetchFuel evalFuel dl lib
      = .ok dl2 pom) : cacheExtends dl dl2 := by
  rw [mavenPomNew] at h
  cases hfp : fetchPhase net baseUrls parse fetchFuel [lib] dl [] []
      (dictSet [] "project.version" lib.version) with
  | none => rw [hfp] at h; cases h
  | some out =>
    rcases out with ⟨dlA, lbu, poms, props⟩
    simp only [hfp] at h
    have hA : cacheExtends dl dlA :=
      fetchPhase_mono net baseUrls parse fetchFuel _ _ _ _ _ _ _ _ _ hfp
    cases hdm : dmPhase props evalFuel [] [] poms with
    | exn m => simp only [hdm] at h; cases h
    | diverge => simp only [hdm] at h; cases h
    | ok dmout =>
      rcases dmout with ⟨dm, log1⟩
      simp only [hdm] at h
      cases hdp : depsPhase props evalFuel [] log1 poms with
      | exn m => simp only [hdp] at h; cases h
      | diverge => simp only [hdp] at h; cases h
      | ok dpout =>
        rcases dpout with ⟨deps, log2⟩
        simp only [hdp] at h
        cases h
        exact hA

/-- Replaying a successful `MavenPom` construction against a state holding
all its final cache entries changes nothing and yields the same object. -/
theorem mavenPomNew_replay (net : Network) (baseUrls : List String) (parse : ParseFun)
    (fetchFuel evalFuel : Nat) (dl : DLState) (lib : MavenLib) (dl2 : DLState)
    (pom : Pom) (h : mavenPomNew net baseUrls parse fetchFuel evalFuel dl lib
      = .ok dl2 pom) :
    ∀ d : DLState, cacheExtends dl2 d →
      mavenPomNew net baseUrls parse fetchFuel evalFuel d lib = .ok d pom := by
  intro d hext
  rw [mavenPomNew] at h ⊢
  cases hfp : fetchPhase net baseUrls parse fetchFuel [lib] dl [] []
      (dictSet [] "project.version" lib.version) with
  | none => rw [hfp] at h; cases h
  | some out =>
    rcases out with ⟨dlA, lbu, poms, props⟩
    simp only [hfp] at h
    cases hdm : dmPhase props evalFuel [] [] poms with
    | exn m => simp only [hdm] at h; cases h
    | diverge => simp only [hdm] at h; cases h
    | ok dmout =>
      rcases dmout with ⟨dm, log1⟩
      simp only [hdm] at h
      cases hdp : depsPhase props evalFuel [] log1 poms with
      | exn m => simp only [hdp] at h; cases h
      | diverge => simp only [hdp] at h; cases h
      | ok dpout =>
        rcases dpout with ⟨deps, log2⟩
        simp only [hdp] at h
        cases h
        rw [fetchPhase_replay net baseUrls parse fetchFuel _ _ _ _ _ _ _ _ _ hfp d hext]
        simp only [hdm, hdp]

/-! ### Monotonicity and replay of the driver -/

/-- The visited list only grows. -/
def visitedExtends (s t : LDState) : Prop :=
  ∀ l, l ∈ s.downloadedLibraries → l ∈ t.downloadedLibraries

theorem downloadLoop_mono (f : LDState → MavenLib → DRes)
    (hmono : ∀ s c s2, f s c = .ok s2 → cacheExtends s.dl s2.dl ∧ visitedExtends s s2) :
    ∀ (deps : List MavenLib) (s s1 : LDState),
      downloadLoop f deps s = .ok s1 →
      cacheExtends s.dl s1.dl ∧ visitedExtends s s1 := by
  intro deps
  induction deps with
  | nil =>
    intro s s1 h
    rw [downloadLoop] at h
    cases h
    exact ⟨cacheExtends_refl _, fun _ hl => hl⟩
  | cons dep rest ih =>
    intro s s1 h
    rw [downloadLoop] at h
    by_cases hmem : dep ∈ s.downloadedLibraries
    · rw [if_pos hmem] at h
      exact ih s s1 h
    · rw [if_neg hmem] at h
      cases hf : f s dep with
      | ok sm =>
        rw [hf] at h
        have h1 := hmono s dep sm hf
        have h2 := ih sm s1 h
        exact ⟨cacheExtends_trans h1.1 h2.1, fun l hl => h2.2 l (h1.2 l hl)⟩
      | exn m sm => rw [hf] at h; cases h
      | diverge => rw [hf] at h; cases h

/-- A successful `download` only grows the cache and the visited list. -/
theorem download_mono (net : Network) (baseUrls : List String) (parse : ParseFun)
    (fetchFuel evalFuel : Nat) :
    ∀ (r : Nat) (st : LDState) (lib : MavenLib) (st1 : LDState),
      download net baseUrls parse fetchFuel evalFuel r st lib = .ok st1 →
      cacheExtends st.dl st1.dl ∧ visitedExtends st st1 := by
  intro r
  induction r with
  | zero => intro st lib st1 h; rw [download] at h; cases h
  | succ n ih =>
    intro st lib st1 h
    rw [download] at h
    cases hmp : mavenPomNew net baseUrls parse fetchFuel evalFuel st.dl lib with
    | diverge => rw [hmp] at h; cases h
    | exn m dl2 => rw [hmp] at h; cases h
    | ok dl2 pom =>
      simp only [hmp] at h
      have hpm := mavenPomNew_mono net baseUrls parse fetchFuel evalFuel st.dl lib
        dl2 pom hmp
      by_cases hempty : pom.allPoms.isEmpty
      · rw [if_pos hempty] at h
        cases h
        exact ⟨hpm, fun l hl => hl⟩
      · rw [if_neg hempty] at h
        cases hgd : getAllDependencies pom.pstate evalFuel with
        | exn m => simp only [hgd] at h; exact DRes.noConfusion h
        | diverge => simp only [hgd] at h; exact DRes.noConfusion h
        | ok deps =>
          simp only [hgd] at h
          have hloop := downloadLoop_mono
            (download net baseUrls parse fetchFuel evalFuel n) (fun s c s2 hf => ih s c s2 hf)
            deps _ st1 h
          refine ⟨cacheExtends_trans hpm hloop.1, fun l hl => hloop.2 l ?_⟩
          exact List.mem_append_left _ hl

/-- Replaying the dependency loop against a state that already holds the
first run's final cache and visited entries: every dependency is either
skipped or replays with no state change, so the loop finishes with the
cache, fetch counter and jar record untouched. -/
theorem downloadLoop_replay (f : LDState → MavenLib → DRes)
    (hmono : ∀ s c s2, f s c = .ok s2 → cacheExtends s.dl s2.dl ∧ visitedExtends s s2)
    (hreplay : ∀ s c s2, f s c = .ok s2 →
      ∀ u : LDState, cacheExtends s2.dl u.dl →
        (∀ l ∈ s2.downloadedLibraries, l ∈ u.downloadedLibraries) →
        ∃ u2, f u c = .ok u2 ∧ u2.dl = u.dl ∧
          (c ∉ s2.downloadedLibraries → u2 = u) ∧
          (∃ js, (js = [] ∨ ∃ b, js = [(b, c)]) ∧
            u2.jarDownloads = u.jarDownloads ++ js) ∧
          visitedExtends u u2) :
    ∀ (deps : List MavenLib) (s s1 : LDState),
      downloadLoop f deps s = .ok s1 →
      ∀ u : LDState, cacheExtends s1.dl u.dl →
        (∀ l ∈ s1.downloadedLibraries, l ∈ u.downloadedLibraries) →
        ∃ u2, downloadLoop f deps u = .ok u2 ∧ u2.dl = u.dl ∧
          u2.jarDownloads = u.jarDownloads ∧ visitedExtends u u2 := by
  intro deps
  induction deps with
  | nil =>
    intro s s1 h u hext hvis
    rw [downloadLoop] at h
    cases h
    exact ⟨u, rfl, rfl, rfl, fun _ hl => hl⟩
  | cons dep rest ih =>
    intro s s1 h u hext hvis
    rw [downloadLoop] at h
    by_cases hmem : dep ∈ s.downloadedLibraries
    · rw [if_pos hmem] at h
      have hmem2 : dep ∈ u.downloadedLibraries := by
        have hm := downloadLoop_mono f hmono rest s s1 h
        exact hvis dep (hm.2 dep hmem)
      obtain ⟨u2, h1, h2, h3, h4⟩ := ih s s1 h u hext hvis
      refine ⟨u2, ?_, h2, h3, h4⟩
      rw [downloadLoop, if_pos hmem2]
      exact h1
    · rw [if_neg hmem] at h
      cases hf : f s dep with
      | exn m sm => simp only [hf] at h; exact DRes.noConfusion h
      | diverge => simp only [hf] at h; exact DRes.noConfusion h
      | ok sm =>
        simp only [hf] at h
        have hmLoop := downloadLoop_mono f hmono rest sm s1 h
        by_cases hmem2 : dep ∈ u.downloadedLibraries
        · obtain ⟨u2, h1, h2, h3, h4⟩ := ih sm s1 h u hext hvis
          refine ⟨u2, ?_, h2, h3, h4⟩
          rw [downloadLoop, if_pos hmem2]
          exact h1
        · have hrep := hreplay s dep sm hf u
            (cacheExtends_trans hmLoop.1 hext)
            (fun l hl => hvis l (hmLoop.2 l hl))
          rcases hrep with ⟨u2, hfu, _hudl, hunv, _hjars, _huvis⟩
          have hnv : dep ∉ sm.downloadedLibraries := by
            intro hin
            exact hmem2 (hvis dep (hmLoop.2 dep hin))
          have hu2 : u2 = u := hunv hnv
          rw [hu2] at hfu
          obtain ⟨u3, h1, h2, h3, h4⟩ := ih sm s1 h u hext hvis
          refine ⟨u3, ?_, h2, h3, h4⟩
          rw [downloadLoop, if_neg hmem2]
          simp only [hfu]
          exact h1

/-- Replaying `download` on a coordinate it has already completed: all pom
lookups are served from the cache (the downloader state — cache and fetch
counter — is unchanged), at most the coordinate's own package retrieval is
repeated, and a coordinate whose chain was unreachable causes no state
change at all. -/
theorem download_replay (net : Network) (baseUrls : List String) (parse : ParseFun)
    (fetchFuel evalFuel : Nat) :
    ∀ (r : Nat) (st : LDState) (lib : MavenLib) (st1 : LDState),
      download net baseUrls parse fetchFuel evalFuel r st lib = .ok st1 →
      ∀ t : LDState, cacheExtends st1.dl t.dl →
        (∀ l ∈ st1.downloadedLibraries, l ∈ t.downloadedLibraries) →
        ∃ t2, download net baseUrls parse fetchFuel evalFuel r t lib = .ok t2 ∧
          t2.dl = t.dl ∧
          (lib ∉ st1.downloadedLibraries → t2 = t) ∧
          (∃ js, (js = [] ∨ ∃ b, js = [(b, lib)]) ∧
            t2.jarDownloads = t.jarDownloads ++ js) ∧
          visitedExtends t t2 := by
  intro r
  induction r with
  | zero => intro st lib st1 h; rw [download] at h; cases h
  | succ n ih =>
    intro st lib st1 h t hext hvis
    rw [download] at h
    cases hmp : mavenPomNew net baseUrls parse fetchFuel evalFuel st.dl lib with
    | diverge => simp only [hmp] at h; exact DRes.noConfusion h
    | exn m dl2 => simp only [hmp] at h; exact DRes.noConfusion h
    | ok dl2 pom =>
      simp only [hmp] at h
      by_cases hempty : pom.allPoms.isEmpty
      · rw [if_pos hempty] at h
        cases h
        have hpomt : mavenPomNew net baseUrls parse fetchFuel evalFuel t.dl lib
            = .ok t.dl pom :=
          mavenPomNew_replay net baseUrls parse fetchFuel evalFuel st.dl lib dl2 pom
            hmp t.dl hext
        refine ⟨t, ?_, rfl, fun _ => rfl,
          ⟨[], Or.inl rfl, (List.append_nil _).symm⟩, fun _ hl => hl⟩
        rw [download]
        simp only [hpomt]
        rw [if_pos hempty]
      · rw [if_neg hempty] at h
        cases hgd : getAllDependencies pom.pstate evalFuel with
        | exn m => simp only [hgd] at h; exact DRes.noConfusion h
        | diverge => simp only [hgd] at h; exact DRes.noConfusion h
        | ok deps =>
          simp only [hgd] at h
          have hloopmono := downloadLoop_mono
            (download net baseUrls parse fetchFuel evalFuel n)
            (download_mono net baseUrls parse fetchFuel evalFuel n) deps _ st1 h
          have hpomt : mavenPomNew net baseUrls parse fetchFuel evalFuel t.dl lib
              = .ok t.dl pom :=
            mavenPomNew_replay net baseUrls parse fetchFuel evalFuel st.dl lib dl2 pom
              hmp t.dl (cacheExtends_trans hloopmono.1 hext)
          have hrep := downloadLoop_replay
            (download net baseUrls parse fetchFuel evalFuel n)
            (download_mono net baseUrls parse fetchFuel evalFuel n)
            (fun s c s2 hf u hx hv => ih s c s2 hf u hx hv) deps _ st1 h
            ⟨t.dl, t.downloadedLibraries ++ [lib],
              t.jarDownloads ++ (if getLibBaseUrl pom lib ≠ ""
                then [(getLibBaseUrl pom lib, lib)] else [])⟩
            hext (fun l hl => List.mem_append_left _ (hvis l hl))
          rcases hrep with ⟨t2, hloop2, ht2dl, ht2jars, ht2vis⟩
          refine ⟨t2, ?_, ht2dl, ?_, ?_, ?_⟩
          · rw [download]
            simp only [hpomt]
            rw [if_neg hempty]
            simp only [hgd]
            exact hloop2
          · intro hnot
            exfalso
            exact hnot (hloopmono.2 lib (List.mem_append_right _ (List.mem_cons_self lib [])))
          · refine ⟨(if getLibBaseUrl pom lib ≠ ""
                then [(getLibBaseUrl pom lib, lib)] else []), ?_, ht2jars⟩
            by_cases hbu : getLibBaseUrl pom lib ≠ ""
            · exact Or.inr ⟨getLibBaseUrl pom lib, by rw [if_pos hbu]⟩
            · exact Or.inl (by rw [if_neg hbu])
          · exact fun l hl => ht2vis l (List.mem_append_left _ hl)

/-! ### Claim C5 -/

/-- The coordinate of the revisit scenario. -/
def libRevisit : MavenLib := ⟨"g", "a", "1"⟩

/-- A network where only this coordinate's pom URL answers 200. -/
def netRevisit : Network := fun u =>
  if u = "http://r/g/a/1/a-1.pom" then .resp 200 "d" else .resp 404 ""

/-- A parse oracle returning an empty document. -/
def parseEmptyDoc : ParseFun := fun _ => ⟨[], none, none, none⟩

/-- The driver state after the first `download` of the revisit scenario:
one cached pom, one network fetch, one visit, one package retrieval. -/
def stRevisit1 : LDState :=
  ⟨⟨[(⟨"g", "a", "1"⟩, some ("d", "http://r"))], 1⟩, [⟨"g", "a", "1"⟩],
    [("http://r", ⟨"g", "a", "1"⟩)]⟩

/-- Claim C5 counterexample: after `download(C)` completes (one metadata
network fetch, one package retrieval), invoking `download(C)` again
performs no further metadata network fetch (the counter stays at 1, the
cache is unchanged) but DOES perform a second package retrieval for C —
the jar-retrieval record grows to two entries — contradicting the claim
that no second package retrieval is triggered. -/
theorem download_revisit_counterexample :
    download netRevisit ["http://r"] parseEmptyDoc 3 3 3 ⟨⟨[], 0⟩, [], []⟩ libRevisit
      = .ok stRevisit1 ∧
    download netRevisit ["http://r"] parseEmptyDoc 3 3 3 stRevisit1 libRevisit
      = .ok ⟨⟨[(⟨"g", "a", "1"⟩, some ("d", "http://r"))], 1⟩,
          [⟨"g", "a", "1"⟩, ⟨"g", "a", "1"⟩],
          [("http://r", ⟨"g", "a", "1"⟩), ("http://r", ⟨"g", "a", "1"⟩)]⟩ :=
  ⟨by decide, by decide⟩

/-- Claim C5 (amended): re-invoking `download` on a coordinate whose
download already completed triggers no second metadata network fetch — the
downloader state, cache and fetch counter included, is left exactly as it
was — but the package retrieval for the coordinate may be performed again
(at most one new jar request, for that coordinate); already-visited
dependencies are not re-traversed. -/
theorem download_revisit_no_refetch (net : Network) (baseUrls : List String)
    (parse : ParseFun) (fetchFuel evalFuel r : Nat) (st : LDState)
    (lib : MavenLib) (st1 : LDState)
    (h : download net baseUrls parse fetchFuel evalFuel r st lib = .ok st1) :
    ∃ st2, download net baseUrls parse fetchFuel evalFuel r st1 lib = .ok st2 ∧
      st2.dl = st1.dl ∧
      ∃ js, (js = [] ∨ ∃ b, js = [(b, lib)]) ∧
        st2.jarDownloads = st1.jarDownloads ++ js := by
  obtain ⟨t2, h1, h2, _h3, h4, _h5⟩ :=
    download_replay net baseUrls parse fetchFuel evalFuel r st lib st1 h st1
      (cacheExtends_refl _) (fun _ hl => hl)
  exact ⟨t2, h1, h2, h4⟩

/-- Claim C5 witness: the amended theorem applied after the concrete
completed first run of the revisit scenario. -/
theorem download_revisit_no_refetch_witness :
    ∃ st2, download netRevisit ["http://r"] parseEmptyDoc 3 3 3 stRevisit1 libRevisit
        = .ok st2 ∧ st2.dl = stRevisit1.dl ∧
      ∃ js, (js = [] ∨ ∃ b, js = [(b, libRevisit)]) ∧
        st2.jarDownloads = stRevisit1.jarDownloads ++ js :=
  download_revisit_no_refetch netRevisit ["http://r"] parseEmptyDoc 3 3 3
    ⟨⟨[], 0⟩, [], []⟩ libRevisit stRevisit1 (by decide)

/-! ### Claim C3 -/

/-- Top-level document of the containment scenario: two sibling
dependencies `g:x:1` and `g:y:1`. -/
def docC3Top : PomDoc :=
  ⟨[], none, none, some ⟨[depElemPlain "g" "x" "1", depElemPlain "g" "y" "1"], []⟩⟩

/-- Document of `g:x:1`: a version-less declaration of `g:d` followed by a
versioned one, so the duplicate check reads a missing version key. -/
def docC3X : PomDoc :=
  ⟨[], none, none, some ⟨[depElemNoVersion "g" "d", depElemPlain "g" "d" "1.0"], []⟩⟩

def parseC3 : ParseFun := fun c =>
  if c = "T" then docC3Top else if c = "X" then docC3X else ⟨[], none, none, none⟩

def netC3 : Network := fun u =>
  if u = "http://r/g/t/1/t-1.pom" then .resp 200 "T"
  else if u = "http://r/g/x/1/x-1.pom" then .resp 200 "X"
  else .resp 404 ""

/-- The shared downloader state when the containment scenario's exception
reaches `main`. -/
def dlC3Final : DLState :=
  ⟨[(⟨"g", "t", "1"⟩, some ("T", "http://r")),
    (⟨"g", "x", "1"⟩, some ("X", "http://r"))], 2⟩

/-- Claim C3 counterexample: the top-level library `g:t:1` resolves to the
two sibling dependencies `g:x:1` and `g:y:1`; a failure confined to X's
resolution (the KeyError of the version-conflict comparison on a missing
version key) aborts the traversal of its sibling Y — the run ends with Y
neither visited nor fetched (the visited list stays `[g:t:1]`), the
exception being caught only by the per-top-level-library handler. -/
theorem containment_counterexample :
    resolvedDependencies "1" 5 [docC3Top]
      = .ok ([⟨"g", "x", "1"⟩, ⟨"g", "y", "1"⟩], []) ∧
    mainLoop netC3 ["http://r"] parseC3 3 5 3 [⟨"g", "t", "1"⟩] ⟨[], 0⟩
      = some ([.caught "KeyError: version"
          ⟨dlC3Final, [⟨"g", "t", "1"⟩], [("http://r", ⟨"g", "t", "1"⟩)]⟩],
          dlC3Final) :=
  ⟨by decide, by decide⟩

/-- Claim C3 (amended): an uncaught failure during one coordinate's
resolution (for instance the KeyError raised when the version-conflict
comparison reads a missing version key) aborts the remaining traversal of
the top-level library tree containing it — sibling coordinates of that
tree are skipped — but it is caught by the per-top-level-library handler
in `main`, so subsequent top-level coordinates are still processed and the
run completes. -/
theorem exception_caught_per_library (net : Network) (baseUrls : List String)
    (parse : ParseFun) (fetchFuel evalFuel recFuel : Nat) (lib : MavenLib)
    (rest : List MavenLib) (dl : DLState) (m : String) (st : LDState)
    (h : download net baseUrls parse fetchFuel evalFuel recFuel ⟨dl, [], []⟩ lib
      = .exn m st) :
    mainLoop net baseUrls parse fetchFuel evalFuel recFuel (lib :: rest) dl =
      match mainLoop net baseUrls parse fetchFuel evalFuel recFuel rest st.dl with
      | some (os, dl2) => some (.caught m st :: os, dl2)
      | none => none := by
  rw [mainLoop]
  simp only [h]

/-- Claim C3 witness: the amended theorem at the concrete containment
scenario, with a second top-level library following the failing one. -/
theorem exception_caught_per_library_witness :
    mainLoop netC3 ["http://r"] parseC3 3 5 3
        [⟨"g", "t", "1"⟩, ⟨"g", "y", "1"⟩] ⟨[], 0⟩
      = match mainLoop netC3 ["http://r"] parseC3 3 5 3 [⟨"g", "y", "1"⟩]
          (⟨dlC3Final, [⟨"g", "t", "1"⟩],
            [("http://r", ⟨"g", "t", "1"⟩)]⟩ : LDState).dl with
        | some (os, dl2) => some (.caught "KeyError: version"
            ⟨dlC3Final, [⟨"g", "t", "1"⟩], [("http://r", ⟨"g", "t", "1"⟩)]⟩ :: os, dl2)
        | none => none :=
  exception_caught_per_library netC3 ["http://r"] parseC3 3 5 3 ⟨"g", "t", "1"⟩
    [⟨"g", "y", "1"⟩] ⟨[], 0⟩ "KeyError: version"
    ⟨dlC3Final, [⟨"g", "t", "1"⟩], [("http://r", ⟨"g", "t", "1"⟩)]⟩ (by decide)
